import Mathlib

/-!
Shallow embedding of the weather-aggregator service (Go) and proofs about it.

Conventions of the embedding:
- Go float64 fields are modelled as rationals; none of the verified code paths
  perform floating-point arithmetic (the aggregator copies fields verbatim).
- Go time.Time instants are modelled as natural-number timestamps.
- Go errors are an inductive type; fallible operations return Except.
- Go maps are total functions into Option (missing key = none); the nil slice
  a Go map yields for a missing key is the empty list.
-/

namespace Weather

/-- Source identifiers (type Source string in models.go). -/
def SourceOpenWeather : String := "openweather"

def SourceOpenMeteo : String := "openmeteo"

def SourceWeatherAPI : String := "weatherapi"

/-- CurrentWeather from models.go: normalized current weather data. -/
structure CurrentWeather where
  City : String
  Temperature : ℚ
  Humidity : Int
  WindSpeed : ℚ
  Description : String
  Source : String
  ObservedAt : Nat
deriving DecidableEq, Repr

/-- The Go zero value CurrentWeather{}. -/
def zeroCurrentWeather : CurrentWeather :=
  { City := "", Temperature := 0, Humidity := 0, WindSpeed := 0
    Description := "", Source := "", ObservedAt := 0 }

/-- ForecastItem from models.go: a single forecast point. -/
structure ForecastItem where
  TimeStamp : Nat
  Temperature : ℚ
  Description : String
  Source : String
deriving DecidableEq, Repr

/-- Forecast from models.go: normalized forecast for a city. -/
structure Forecast where
  City : String
  Items : List ForecastItem
  From : Nat
  To : Nat
  Source : String
  UpdatedAt : Nat
deriving DecidableEq, Repr

/-- The Go zero value Forecast{}. -/
def zeroForecast : Forecast :=
  { City := "", Items := [], From := 0, To := 0, Source := "", UpdatedAt := 0 }

/-- AggregateCurrentWeather (aggregate.go): combines multiple CurrentWeather
results into one.  The source returns the zero value on an empty input and
otherwise the first successful entry (the TODO comment defers averaging). -/
def AggregateCurrentWeather (results : List CurrentWeather) : CurrentWeather :=
  match results with
  | [] => zeroCurrentWeather
  | r :: _ => r

/-- AggregateForecast (aggregate.go): combines multiple Forecast results into
one, returning the zero value on empty input and the first entry otherwise. -/
def AggregateForecast (results : List Forecast) : Forecast :=
  match results with
  | [] => zeroForecast
  | r :: _ => r

/-- The classified provider errors (provider.go): ErrCityNotFound,
ErrProviderUnavailable; other stands for any unclassified Go error value. -/
inductive WErr where
  | cityNotFound
  | providerUnavailable
  | other (msg : String)
deriving DecidableEq, Repr

/-- The Provider interface (provider.go), with the context dropped: the fetch
functions are the (pure) outcome each provider call produces for the given
arguments in the execution being analysed. -/
structure Provider where
  name : String
  fetchCurrent : String → Except WErr CurrentWeather
  fetchForecast : String → Int → Except WErr Forecast

/-- The success-collection loop of the service (service.go): results arriving
on the channel whose err field is nil are appended to the successes slice;
failures are logged and skipped. -/
def successList (results : List (Except WErr α)) : List α :=
  results.filterMap fun r =>
    match r with
    | .ok a => some a
    | .error _ => none

/-- Service.GetCurrentWeather (service.go): on a zero provider slice it
returns ErrProviderUnavailable at once; otherwise it dispatches one fetch per
provider, collects the successes, and returns ErrProviderUnavailable when
none succeeded and the aggregate otherwise.  The second component records the
names of the providers that were dispatched (empty on the early return); the
channel arrival order is modelled as the provider order, which is general
because the caller may pass any ordering of the provider list.  The lastErr
variable of the source only feeds a log line and is not modelled. -/
def GetCurrentWeatherRun (providers : List Provider) (city : String) :
    Except WErr CurrentWeather × List String :=
  if providers.length = 0 then (.error .providerUnavailable, [])
  else
    ((if (successList (providers.map fun p => p.fetchCurrent city)).length = 0 then
        .error .providerUnavailable
      else
        .ok (AggregateCurrentWeather
          (successList (providers.map fun p => p.fetchCurrent city)))),
     providers.map fun p => p.name)

/-- The error-or-value component of Service.GetCurrentWeather. -/
def GetCurrentWeather (providers : List Provider) (city : String) :
    Except WErr CurrentWeather :=
  (GetCurrentWeatherRun providers city).1

/-- Service.GetForecast (service.go), modelled exactly like
GetCurrentWeatherRun. -/
def GetForecastRun (providers : List Provider) (city : String) (days : Int) :
    Except WErr Forecast × List String :=
  if providers.length = 0 then (.error .providerUnavailable, [])
  else
    ((if (successList (providers.map fun p => p.fetchForecast city days)).length = 0 then
        .error .providerUnavailable
      else
        .ok (AggregateForecast
          (successList (providers.map fun p => p.fetchForecast city days)))),
     providers.map fun p => p.name)

/-- The error-or-value component of Service.GetForecast. -/
def GetForecast (providers : List Provider) (city : String) (days : Int) :
    Except WErr Forecast :=
  (GetForecastRun providers city days).1

end Weather

namespace Storage

/-- normalizeCity (memory.go): strings.ToLower(strings.TrimSpace(city)),
modelled on the character list of the string — leading and trailing
whitespace dropped, then every character lowercased. -/
def normalizeCity (city : String) : String :=
  ⟨(((city.data.dropWhile Char.isWhitespace).reverse.dropWhile
      Char.isWhitespace).reverse).map Char.toLower⟩

/-- maxHistoryEntries (memory.go). -/
def maxHistoryEntries : Nat := 50

/-- CurrentSnapshot (memory.go). -/
structure CurrentSnapshot where
  At : Nat
  Data : Weather.CurrentWeather
deriving DecidableEq, Repr

/-- ForecastSnapshot (memory.go). -/
structure ForecastSnapshot where
  At : Nat
  Days : Int
  Data : Weather.Forecast
deriving DecidableEq, Repr

/-- InMemoryStore (memory.go).  Go maps become total functions into Option;
history maps yield the empty list for a missing key, as a nil Go slice does.
The mutex only serializes access and has no sequential semantics. -/
structure InMemoryStore where
  current : String → Option Weather.CurrentWeather
  forecast : String × Int → Option Weather.Forecast
  lastFetch : String → Option Nat
  currentHistory : String → List CurrentSnapshot
  forecastHistory : String × Int → List ForecastSnapshot

/-- NewInMemoryStore (memory.go): all maps empty. -/
def NewInMemoryStore : InMemoryStore :=
  { current := fun _ => none
    forecast := fun _ => none
    lastFetch := fun _ => none
    currentHistory := fun _ => []
    forecastHistory := fun _ => [] }

/-- The history-bounding step of SaveCurrent and SaveForecast (memory.go):
if len(h) exceeds maxHistoryEntries, keep the last maxHistoryEntries. -/
def trimHistory (h : List α) : List α :=
  if h.length > maxHistoryEntries then h.drop (h.length - maxHistoryEntries) else h

/-- SaveCurrent (memory.go): stores the latest value, the last fetch time and
the bounded history, all under the normalized key. -/
def SaveCurrent (s : InMemoryStore) (city : String) (w : Weather.CurrentWeather)
    (fetchedAt : Nat) : InMemoryStore :=
  let key := normalizeCity city
  { s with
    current := fun k => if k = key then some w else s.current k
    lastFetch := fun k => if k = key then some fetchedAt else s.lastFetch k
    currentHistory := fun k =>
      if k = key then trimHistory (s.currentHistory key ++ [⟨fetchedAt, w⟩])
      else s.currentHistory k }

/-- GetCurrent (memory.go). -/
def GetCurrent (s : InMemoryStore) (city : String) : Option Weather.CurrentWeather :=
  s.current (normalizeCity city)

/-- SaveForecast (memory.go): keyed by (normalized city, days); also updates
the last fetch time under the normalized city and the bounded history. -/
def SaveForecast (s : InMemoryStore) (city : String) (days : Int)
    (f : Weather.Forecast) (fetchedAt : Nat) : InMemoryStore :=
  let normalizedCity := normalizeCity city
  let key : String × Int := (normalizedCity, days)
  { s with
    forecast := fun k => if k = key then some f else s.forecast k
    lastFetch := fun k => if k = normalizedCity then some fetchedAt else s.lastFetch k
    forecastHistory := fun k =>
      if k = key then trimHistory (s.forecastHistory key ++ [⟨fetchedAt, days, f⟩])
      else s.forecastHistory k }

/-- GetForecast (memory.go). -/
def GetForecast (s : InMemoryStore) (city : String) (days : Int) :
    Option Weather.Forecast :=
  s.forecast (normalizeCity city, days)

/-- CurrentHistory (memory.go): up to limit recent snapshots; limit <= 0 or
limit >= len(h) returns all entries (the source's copy into a fresh slice is
the identity on the value). -/
def CurrentHistory (s : InMemoryStore) (city : String) (limit : Int) :
    List CurrentSnapshot :=
  let h := s.currentHistory (normalizeCity city)
  if h.length = 0 then []
  else if limit ≤ 0 ∨ (h.length : Int) ≤ limit then h
  else h.drop (h.length - limit.toNat)

/-- ForecastHistory (memory.go), analogous to CurrentHistory. -/
def ForecastHistory (s : InMemoryStore) (city : String) (days limit : Int) :
    List ForecastSnapshot :=
  let h := s.forecastHistory (normalizeCity city, days)
  if h.length = 0 then []
  else if limit ≤ 0 ∨ (h.length : Int) ≤ limit then h
  else h.drop (h.length - limit.toNat)

/-- LastFetchTimes (memory.go): a copy of the last-fetch map (copying is the
identity on the modelled value). -/
def LastFetchTimes (s : InMemoryStore) : String → Option Nat :=
  s.lastFetch

/-- A sequence of SaveCurrent calls, each (city, value, fetchedAt), applied in
order. -/
def applySaves (saves : List (String × Weather.CurrentWeather × Nat))
    (s : InMemoryStore) : InMemoryStore :=
  saves.foldl (fun st sv => SaveCurrent st sv.1 sv.2.1 sv.2.2) s

/-- A sequence of SaveCurrent calls for one fixed city. -/
def applyCitySaves (city : String) (saves : List (Weather.CurrentWeather × Nat))
    (s : InMemoryStore) : InMemoryStore :=
  applySaves (saves.map fun p => (city, p)) s

/-- The last n elements of a list (specification helper for the history
bound). -/
def takeLast (n : Nat) (l : List α) : List α :=
  l.drop (l.length - n)

/-- Iterating the append-then-bound step of SaveCurrent over a list of new
snapshots (specification helper). -/
def trimIter (h : List α) (xs : List α) : List α :=
  xs.foldl (fun acc x => trimHistory (acc ++ [x])) h

end Storage

namespace Api

/-- The HTTP outcomes the handlers in cmd/weather/main.go can produce. -/
inductive HStatus where
  | badRequest
  | notFound
  | serviceUnavailable
  | internalError
deriving DecidableEq, Repr

/-- mapServiceError (main.go): ErrCityNotFound to 404, ErrProviderUnavailable
to 503, anything else to 500. -/
def mapServiceError : Weather.WErr → HStatus
  | .cityNotFound => .notFound
  | .providerUnavailable => .serviceUnavailable
  | .other _ => .internalError

/-- The GET /weather/current handler (main.go): requires a city, serves the
cache when it hits, otherwise calls the service and maps its error; the save
of a fresh success into the store does not change the response body. -/
def handleCurrent (store : Storage.InMemoryStore)
    (providers : List Weather.Provider) (city : String) :
    HStatus ⊕ Weather.CurrentWeather :=
  if city = "" then .inl .badRequest
  else
    match Storage.GetCurrent store city with
    | some w => .inr w
    | none =>
      match Weather.GetCurrentWeather providers city with
      | .ok w => .inr w
      | .error e => .inl (mapServiceError e)

/-- The GET /weather/forecast handler (main.go): requires a city and a days
value in 1..7, serves the cache when it hits, otherwise calls the service and
maps its error. -/
def handleForecast (store : Storage.InMemoryStore)
    (providers : List Weather.Provider) (city : String) (days : Int) :
    HStatus ⊕ Weather.Forecast :=
  if city = "" then .inl .badRequest
  else if days < 1 ∨ 7 < days then .inl .badRequest
  else
    match Storage.GetForecast store city days with
    | some fc => .inr fc
    | none =>
      match Weather.GetForecast providers city days with
      | .ok fc => .inr fc
      | .error e => .inl (mapServiceError e)

end Api

namespace Sched

/-- The scheduler state relevant to the overlap guard (scheduler.go): the
atomic running flag (int32 0/1), the number of refresh cycles currently
executing, and how many ticks the guard has skipped.  The cities, interval
and logger do not influence the guard. -/
structure SchedState where
  running : Bool
  active : Nat
  skipped : Nat
deriving DecidableEq, Repr

/-- The initial scheduler state: idle, nothing running. -/
def initState : SchedState :=
  { running := false, active := 0, skipped := 0 }

/-- Atomic events of runOnce (scheduler.go), as a step relation over
interleavings:
- tickSkip: a tick arrives while running is set; CompareAndSwap(0,1) fails,
  the tick is logged as skipped and nothing else happens;
- tickStart: a tick arrives while idle; CompareAndSwap(0,1) succeeds and the
  cycle body starts executing;
- cycleDone: an executing cycle body finishes and the deferred
  StoreInt32(running, 0) runs. -/
inductive Step : SchedState → SchedState → Prop
  | tickSkip (s : SchedState) (h : s.running = true) :
      Step s { s with skipped := s.skipped + 1 }
  | tickStart (s : SchedState) (h : s.running = false) :
      Step s { s with running := true, active := s.active + 1 }
  | cycleDone (s : SchedState) (h : 0 < s.active) :
      Step s { s with running := false, active := s.active - 1 }

/-- States reachable from the initial scheduler state by any interleaving of
ticks and cycle completions. -/
inductive Reachable : SchedState → Prop
  | init : Reachable initState
  | step {s t : SchedState} : Reachable s → Step s t → Reachable t

/-- runForCity (scheduler.go): fetch current weather and forecast for one
city; each successful fetch is saved, each failed one is only logged, and the
two fetches are handled by independent branches. -/
def runForCity (providers : List Weather.Provider) (store : Storage.InMemoryStore)
    (city : String) (days : Int) (tCur tFc : Nat) : Storage.InMemoryStore :=
  let afterCurrent :=
    match Weather.GetCurrentWeather providers city with
    | .error _ => store
    | .ok w => Storage.SaveCurrent store city w tCur
  match Weather.GetForecast providers city days with
  | .error _ => afterCurrent
  | .ok f => Storage.SaveForecast afterCurrent city days f tFc

end Sched

/-- A sample normalized weather record for concrete instantiations. -/
def sampleWeather : Weather.CurrentWeather :=
  { Weather.zeroCurrentWeather with
    City := "Paris", Temperature := 12, Humidity := 60, WindSpeed := 3
    Source := Weather.SourceOpenMeteo }

/-- A sample forecast record for concrete instantiations. -/
def sampleForecast : Weather.Forecast :=
  { Weather.zeroForecast with City := "Paris", Source := Weather.SourceOpenMeteo }

/-- A provider whose calls all fail transiently, like the stub
OpenWeatherMapProvider (openweather.go). -/
def failingProvider : Weather.Provider :=
  { name := Weather.SourceOpenWeather
    fetchCurrent := fun _ => .error .providerUnavailable
    fetchForecast := fun _ _ => .error .providerUnavailable }

/-- A provider for which every call succeeds. -/
def okProvider : Weather.Provider :=
  { name := Weather.SourceOpenMeteo
    fetchCurrent := fun _ => .ok sampleWeather
    fetchForecast := fun _ _ => .ok sampleForecast }

/-- A provider that does not recognize the requested city, like
OpenMeteoProvider on a city outside its coordinate table (openmeteo impl). -/
def cityNotFoundProvider : Weather.Provider :=
  { name := Weather.SourceOpenMeteo
    fetchCurrent := fun _ => .error .cityNotFound
    fetchForecast := fun _ _ => .error .cityNotFound }

/-- A provider whose current-weather fetch fails but whose forecast fetch
succeeds. -/
def forecastOnlyProvider : Weather.Provider :=
  { name := Weather.SourceOpenMeteo
    fetchCurrent := fun _ => .error .providerUnavailable
    fetchForecast := fun _ _ => .ok sampleForecast }

/-- A provider whose forecast fetch fails but whose current-weather fetch
succeeds. -/
def currentOnlyProvider : Weather.Provider :=
  { name := Weather.SourceOpenMeteo
    fetchCurrent := fun _ => .ok sampleWeather
    fetchForecast := fun _ _ => .error .providerUnavailable }

/-- Fifty-one distinct save payloads for one city. -/
def save51 : List (Weather.CurrentWeather × Nat) :=
  (List.range 51).map fun (i : Nat) =>
    ({ Weather.zeroCurrentWeather with Temperature := (i : ℚ) }, i)

/-- Claim C1: for every non-empty list of successful CurrentWeather results,
AggregateCurrentWeather averages the numeric fields (temperature, humidity,
wind speed); merging temperatures 10 and 14 would yield 12.0.  This is FALSE
on the code: the function returns the first entry, so the merge of 10 and 14
has temperature 10, not 12. -/
theorem c1_average_counterexample :
    (Weather.AggregateCurrentWeather
      [{ Weather.zeroCurrentWeather with City := "Paris", Temperature := 10 },
       { Weather.zeroCurrentWeather with City := "Paris", Temperature := 14 }]).Temperature
      = 10 ∧
    ((10 : ℚ) + 14) / 2 ≠ 10 := by
  constructor
  · rfl
  · norm_num

/-- Claim C1 (amended): AggregateCurrentWeather returns the first contributing
result unchanged — every field, the numeric ones included, is the first
contributor's value, so merging temperatures 10 and 14 yields 10, not the
arithmetic average 12. -/
theorem c1_aggregate_returns_first (r : Weather.CurrentWeather)
    (rest : List Weather.CurrentWeather) :
    Weather.AggregateCurrentWeather (r :: rest) = r ∧
    (Weather.AggregateCurrentWeather (r :: rest)).Temperature = r.Temperature ∧
    (Weather.AggregateCurrentWeather (r :: rest)).Humidity = r.Humidity ∧
    (Weather.AggregateCurrentWeather (r :: rest)).WindSpeed = r.WindSpeed := by
  exact ⟨rfl, rfl, rfl, rfl⟩

/-- Claim C3: the merge is order-independent — AggregateCurrentWeather applied
to the two permutations of the same two-element list returns equal results,
likewise AggregateForecast.  FALSE on the code: both functions return the
first element, so swapping two distinct results changes the answer. -/
theorem c3_order_counterexample :
    Weather.AggregateCurrentWeather
        [{ Weather.zeroCurrentWeather with Temperature := 10 },
         { Weather.zeroCurrentWeather with Temperature := 14 }]
      ≠ Weather.AggregateCurrentWeather
        [{ Weather.zeroCurrentWeather with Temperature := 14 },
         { Weather.zeroCurrentWeather with Temperature := 10 }] ∧
    Weather.AggregateForecast
        [{ Weather.zeroForecast with City := "Paris" },
         { Weather.zeroForecast with City := "London" }]
      ≠ Weather.AggregateForecast
        [{ Weather.zeroForecast with City := "London" },
         { Weather.zeroForecast with City := "Paris" }] := by
  constructor
  · intro h
    have : (10 : ℚ) = 14 := congrArg Weather.CurrentWeather.Temperature h
    exact absurd this (by norm_num)
  · intro h
    have : "Paris" = "London" := congrArg Weather.Forecast.City h
    exact absurd this (by decide)

/-- Claim C3 (amended): AggregateCurrentWeather and AggregateForecast each
return the first element of their input, so the merge is order-dependent:
merging [A, B] yields A while [B, A] yields B, and the two agree exactly when
A = B.  (Determinism for a fixed input list does hold, being a function.) -/
theorem c3_first_element_order_dependent (a b : Weather.CurrentWeather)
    (f g : Weather.Forecast) :
    Weather.AggregateCurrentWeather [a, b] = a ∧
    Weather.AggregateCurrentWeather [b, a] = b ∧
    (Weather.AggregateCurrentWeather [a, b] = Weather.AggregateCurrentWeather [b, a] ↔ a = b) ∧
    Weather.AggregateForecast [f, g] = f ∧
    Weather.AggregateForecast [g, f] = g ∧
    (Weather.AggregateForecast [f, g] = Weather.AggregateForecast [g, f] ↔ f = g) := by
  refine ⟨rfl, rfl, ⟨fun h => h, fun h => h⟩, rfl, rfl, ⟨fun h => h, fun h => h⟩⟩

/-- Claim C9: on the empty input list, AggregateCurrentWeather and
AggregateForecast are total and return the Go zero-valued record rather than
failing. -/
theorem c9_aggregate_empty_zero :
    Weather.AggregateCurrentWeather [] = Weather.zeroCurrentWeather ∧
    Weather.AggregateForecast [] = Weather.zeroForecast := by
  exact ⟨rfl, rfl⟩

/-- Claim C7: with an empty configured provider list, both service calls fail
immediately with ErrProviderUnavailable, and the dispatched-provider trace is
empty — no provider is invoked. -/
theorem c7_no_providers_immediate_failure (city : String) (days : Int) :
    Weather.GetCurrentWeatherRun [] city
      = (.error .providerUnavailable, []) ∧
    Weather.GetForecastRun [] city days
      = (.error .providerUnavailable, []) :=
  ⟨rfl, rfl⟩

theorem successList_eq_nil_of_errors {α : Type} {rs : List (Except Weather.WErr α)}
    (h : ∀ r ∈ rs, ∃ e, r = .error e) : Weather.successList rs = [] := by
  induction rs with
  | nil => rfl
  | cons r rs ih =>
    obtain ⟨e, he⟩ := h r (List.mem_cons_self r rs)
    have hrest : ∀ x ∈ rs, ∃ e, x = .error e :=
      fun x hx => h x (List.mem_cons_of_mem r hx)
    subst he
    simpa [Weather.successList, List.filterMap_cons] using ih hrest

/-- Claim C4: over a non-empty provider set, GetCurrentWeather fails (with
ErrProviderUnavailable, never with a zero-valued success) exactly when the
success set is empty, and with at least one success it returns the aggregated
success. -/
theorem c4_fails_iff_no_success (providers : List Weather.Provider) (city : String)
    (hne : providers ≠ []) :
    (Weather.GetCurrentWeather providers city = .error .providerUnavailable ↔
      Weather.successList (providers.map fun p => p.fetchCurrent city) = []) ∧
    (Weather.successList (providers.map fun p => p.fetchCurrent city) ≠ [] →
      Weather.GetCurrentWeather providers city =
        .ok (Weather.AggregateCurrentWeather
          (Weather.successList (providers.map fun p => p.fetchCurrent city)))) := by
  have hlen : ¬ providers.length = 0 := by
    simpa [List.length_eq_zero] using hne
  constructor
  · by_cases hS : Weather.successList (providers.map fun p => p.fetchCurrent city) = []
    · simp [Weather.GetCurrentWeather, Weather.GetCurrentWeatherRun, if_neg hlen, hS]
    · have hSlen : ¬ (Weather.successList (providers.map fun p => p.fetchCurrent city)).length = 0 := by
        simpa [List.length_eq_zero] using hS
      simp [Weather.GetCurrentWeather, Weather.GetCurrentWeatherRun, if_neg hlen,
        if_neg hSlen, hS]
  · intro hS
    have hSlen : ¬ (Weather.successList (providers.map fun p => p.fetchCurrent city)).length = 0 := by
      simpa [List.length_eq_zero] using hS
    simp [Weather.GetCurrentWeather, Weather.GetCurrentWeatherRun, if_neg hlen,
      if_neg hSlen, hS]

theorem c4_fails_iff_no_success_witness :
    ([failingProvider, okProvider] ≠ ([] : List Weather.Provider)) ∧
    ((Weather.GetCurrentWeather [failingProvider, okProvider] "Paris"
        = .error .providerUnavailable ↔
      Weather.successList ([failingProvider, okProvider].map fun p => p.fetchCurrent "Paris") = []) ∧
    (Weather.successList ([failingProvider, okProvider].map fun p => p.fetchCurrent "Paris") ≠ [] →
      Weather.GetCurrentWeather [failingProvider, okProvider] "Paris" =
        .ok (Weather.AggregateCurrentWeather
          (Weather.successList ([failingProvider, okProvider].map fun p => p.fetchCurrent "Paris"))))) :=
  ⟨by simp, c4_fails_iff_no_success [failingProvider, okProvider] "Paris" (by simp)⟩

/-- Claim C2: when every configured provider fails with CityNotFound, the
handlers surface the not-found mapping.  FALSE on the code: the service
collapses every total failure into ErrProviderUnavailable, so the forecast
handler for Atlantis answers service-unavailable, not not-found. -/
theorem c2_not_found_counterexample :
    Api.handleForecast Storage.NewInMemoryStore [cityNotFoundProvider] "Atlantis" 3
      = .inl Api.HStatus.serviceUnavailable ∧
    Api.HStatus.serviceUnavailable ≠ Api.HStatus.notFound := by
  exact ⟨rfl, by decide⟩

/-- Claim C2 (amended): when every configured provider fails with
CityNotFound, the service returns ErrProviderUnavailable — it never
propagates ErrCityNotFound — so the forecast and current-weather handlers
surface the service-unavailable mapping, not not-found. -/
theorem c2_all_not_found_surfaces_unavailable
    (store : Storage.InMemoryStore) (providers : List Weather.Provider)
    (city : String) (days : Int)
    (hne : providers ≠ [])
    (hcity : city ≠ "")
    (hdays : 1 ≤ days ∧ days ≤ 7)
    (hmissF : Storage.GetForecast store city days = none)
    (hmissC : Storage.GetCurrent store city = none)
    (hfailF : ∀ p ∈ providers, p.fetchForecast city days = .error .cityNotFound)
    (hfailC : ∀ p ∈ providers, p.fetchCurrent city = .error .cityNotFound) :
    Weather.GetForecast providers city days = .error .providerUnavailable ∧
    Api.handleForecast store providers city days = .inl .serviceUnavailable ∧
    Weather.GetCurrentWeather providers city = .error .providerUnavailable ∧
    Api.handleCurrent store providers city = .inl .serviceUnavailable := by
  have hlen : ¬ providers.length = 0 := by
    simpa [List.length_eq_zero] using hne
  have hSF : Weather.successList (providers.map fun p => p.fetchForecast city days) = [] := by
    refine successList_eq_nil_of_errors ?_
    intro r hr
    obtain ⟨p, hp, rfl⟩ := List.mem_map.mp hr
    exact ⟨.cityNotFound, hfailF p hp⟩
  have hSC : Weather.successList (providers.map fun p => p.fetchCurrent city) = [] := by
    refine successList_eq_nil_of_errors ?_
    intro r hr
    obtain ⟨p, hp, rfl⟩ := List.mem_map.mp hr
    exact ⟨.cityNotFound, hfailC p hp⟩
  have hsvcF : Weather.GetForecast providers city days = .error .providerUnavailable := by
    simp [Weather.GetForecast, Weather.GetForecastRun, if_neg hlen, hSF]
  have hsvcC : Weather.GetCurrentWeather providers city = .error .providerUnavailable := by
    simp [Weather.GetCurrentWeather, Weather.GetCurrentWeatherRun, if_neg hlen, hSC]
  have hdaysOk : ¬ (days < 1 ∨ 7 < days) := by omega
  refine ⟨hsvcF, ?_, hsvcC, ?_⟩
  · simp [Api.handleForecast, if_neg hcity, if_neg hdaysOk, hmissF, hsvcF,
      Api.mapServiceError]
  · simp [Api.handleCurrent, if_neg hcity, hmissC, hsvcC, Api.mapServiceError]

theorem c2_all_not_found_surfaces_unavailable_witness :
    ([cityNotFoundProvider] ≠ ([] : List Weather.Provider)) ∧
    (Weather.GetForecast [cityNotFoundProvider] "Atlantis" 3
        = .error .providerUnavailable ∧
      Api.handleForecast Storage.NewInMemoryStore [cityNotFoundProvider] "Atlantis" 3
        = .inl .serviceUnavailable ∧
      Weather.GetCurrentWeather [cityNotFoundProvider] "Atlantis"
        = .error .providerUnavailable ∧
      Api.handleCurrent Storage.NewInMemoryStore [cityNotFoundProvider] "Atlantis"
        = .inl .serviceUnavailable) :=
  ⟨by simp,
   c2_all_not_found_surfaces_unavailable Storage.NewInMemoryStore
     [cityNotFoundProvider] "Atlantis" 3 (by simp) (by decide) (by decide) rfl rfl
     (by intro p hp; rw [List.mem_singleton.mp hp]; rfl)
     (by intro p hp; rw [List.mem_singleton.mp hp]; rfl)⟩

/-- Claim C5: every store operation — SaveCurrent, GetCurrent, SaveForecast,
GetForecast, the histories and the last-fetch-time map — depends on the city
only through the normalized key, so two spellings of the same city never
produce two distinct slots; in particular SaveCurrent("London", v, t)
followed by GetCurrent(" london ") returns v. -/
theorem c5_normalized_keys (s : Storage.InMemoryStore) (c1 c2 : String)
    (w : Weather.CurrentWeather) (f : Weather.Forecast) (days lim : Int) (t : Nat)
    (h : Storage.normalizeCity c1 = Storage.normalizeCity c2) :
    Storage.SaveCurrent s c1 w t = Storage.SaveCurrent s c2 w t ∧
    Storage.GetCurrent s c1 = Storage.GetCurrent s c2 ∧
    Storage.SaveForecast s c1 days f t = Storage.SaveForecast s c2 days f t ∧
    Storage.GetForecast s c1 days = Storage.GetForecast s c2 days ∧
    Storage.CurrentHistory s c1 lim = Storage.CurrentHistory s c2 lim ∧
    Storage.ForecastHistory s c1 days lim = Storage.ForecastHistory s c2 days lim ∧
    Storage.LastFetchTimes (Storage.SaveCurrent s c1 w t)
      = Storage.LastFetchTimes (Storage.SaveCurrent s c2 w t) ∧
    Storage.GetCurrent (Storage.SaveCurrent s c1 w t) c2 = some w := by
  refine ⟨?_, ?_, ?_, ?_, ?_, ?_, ?_, ?_⟩ <;>
    simp [Storage.SaveCurrent, Storage.GetCurrent, Storage.SaveForecast,
      Storage.GetForecast, Storage.CurrentHistory, Storage.ForecastHistory,
      Storage.LastFetchTimes, h]

theorem c5_normalized_keys_witness :
    Storage.normalizeCity "London" = Storage.normalizeCity " london " ∧
    Storage.GetCurrent
        (Storage.SaveCurrent Storage.NewInMemoryStore "London" sampleWeather 7)
        " london "
      = some sampleWeather := by
  have h : Storage.normalizeCity "London" = Storage.normalizeCity " london " := by
    decide
  exact ⟨h, (c5_normalized_keys Storage.NewInMemoryStore "London" " london "
    sampleWeather sampleForecast 3 0 7 h).2.2.2.2.2.2.2⟩

/-- Claim C10: within one scheduler cycle, the current-weather fetch and the
forecast fetch for a city are independent — when one fails and the other
succeeds, the successful one is still saved to the store. -/
theorem c10_independent_fetches (providers : List Weather.Provider)
    (store : Storage.InMemoryStore) (city : String) (days : Int) (tCur tFc : Nat) :
    (∀ e f, Weather.GetCurrentWeather providers city = .error e →
      Weather.GetForecast providers city days = .ok f →
      Storage.GetForecast (Sched.runForCity providers store city days tCur tFc) city days
        = some f) ∧
    (∀ w e, Weather.GetForecast providers city days = .error e →
      Weather.GetCurrentWeather providers city = .ok w →
      Storage.GetCurrent (Sched.runForCity providers store city days tCur tFc) city
        = some w) := by
  constructor
  · intro e f hc hf
    simp [Sched.runForCity, hc, hf, Storage.GetForecast, Storage.SaveForecast]
  · intro w e hf hc
    simp [Sched.runForCity, hc, hf, Storage.GetCurrent, Storage.SaveCurrent]

theorem c10_independent_fetches_witness :
    Weather.GetCurrentWeather [forecastOnlyProvider] "Paris"
      = .error .providerUnavailable ∧
    Weather.GetForecast [currentOnlyProvider] "Paris" 1
      = .error .providerUnavailable ∧
    Storage.GetForecast
        (Sched.runForCity [forecastOnlyProvider] Storage.NewInMemoryStore "Paris" 1 5 6)
        "Paris" 1
      = some sampleForecast ∧
    Storage.GetCurrent
        (Sched.runForCity [currentOnlyProvider] Storage.NewInMemoryStore "Paris" 1 5 6)
        "Paris"
      = some sampleWeather := by
  refine ⟨rfl, rfl, ?_, ?_⟩
  · exact (c10_independent_fetches [forecastOnlyProvider] Storage.NewInMemoryStore
      "Paris" 1 5 6).1 _ _ rfl rfl
  · exact (c10_independent_fetches [currentOnlyProvider] Storage.NewInMemoryStore
      "Paris" 1 5 6).2 _ _ rfl rfl

theorem sched_invariant {s : Sched.SchedState} (h : Sched.Reachable s) :
    s.active = if s.running then 1 else 0 := by
  induction h with
  | init => rfl
  | step hre hstep ih =>
    cases hstep with
    | tickSkip ht => simpa using ih
    | tickStart ht =>
      rw [ht] at ih
      simp at ih
      simp [ih]
    | cycleDone ht =>
      split at ih
      · simp at ih ⊢
        omega
      · simp at ih ⊢
        omega

/-- Claim C8: in every reachable interleaving of scheduler ticks and cycle
completions, at most one refresh cycle executes at any time, and any tick
arriving while the guard is set never increases the number of executing
cycles (it is skipped). -/
theorem c8_no_overlapping_cycles (s t : Sched.SchedState)
    (h : Sched.Reachable s) :
    s.active ≤ 1 ∧
    (s.running = true → Sched.Step s t → t.active ≤ s.active) := by
  have hinv := sched_invariant h
  constructor
  · rcases hr : s.running with _ | _ <;> rw [hr] at hinv <;> simp at hinv <;> omega
  · intro hrun hstep
    cases hstep with
    | tickSkip ht => exact Nat.le_refl _
    | tickStart hfalse => rw [hrun] at hfalse; cases hfalse
    | cycleDone ht => exact Nat.sub_le _ _

theorem c8_no_overlapping_cycles_witness :
    Sched.Reachable { running := true, active := 1, skipped := 0 } ∧
    (({ running := true, active := 1, skipped := 0 } : Sched.SchedState).active ≤ 1 ∧
      (({ running := true, active := 1, skipped := 0 } : Sched.SchedState).running = true →
        Sched.Step { running := true, active := 1, skipped := 0 }
          { running := true, active := 1, skipped := 1 } →
        ({ running := true, active := 1, skipped := 1 } : Sched.SchedState).active
          ≤ ({ running := true, active := 1, skipped := 0 } : Sched.SchedState).active)) := by
  have hreach : Sched.Reachable { running := true, active := 1, skipped := 0 } :=
    Sched.Reachable.step Sched.Reachable.init (Sched.Step.tickStart Sched.initState rfl)
  exact ⟨hreach, c8_no_overlapping_cycles _ _ hreach⟩

theorem trimHistory_length {α : Type} (h : List α) :
    (Storage.trimHistory h).length = min h.length Storage.maxHistoryEntries := by
  by_cases hgt : h.length > Storage.maxHistoryEntries
  · simp [Storage.trimHistory, hgt]
    omega
  · simp [Storage.trimHistory, hgt]
    omega

theorem takeLast_of_le {α : Type} {n : Nat} {l : List α} (h : l.length ≤ n) :
    Storage.takeLast n l = l := by
  simp [Storage.takeLast, Nat.sub_eq_zero_of_le h]

theorem trimHistory_eq_takeLast {α : Type} (h : List α) :
    Storage.trimHistory h = Storage.takeLast Storage.maxHistoryEntries h := by
  by_cases hgt : h.length > Storage.maxHistoryEntries
  · simp [Storage.trimHistory, Storage.takeLast, hgt]
  · simp [Storage.trimHistory, hgt, takeLast_of_le (by omega : h.length ≤ Storage.maxHistoryEntries)]

theorem takeLast_append_takeLast {α : Type} (n : Nat) (l xs : List α) :
    Storage.takeLast n (Storage.takeLast n l ++ xs) = Storage.takeLast n (l ++ xs) := by
  by_cases hle : l.length ≤ n
  · rw [takeLast_of_le hle]
  · have hlen : (List.drop (l.length - n) l).length = n := by
      simp
      omega
    simp only [Storage.takeLast, List.length_append, hlen]
    have h1 : n + xs.length - n = xs.length := by omega
    rw [h1, List.drop_append_eq_append_drop, List.drop_append_eq_append_drop]
    congr 1
    · show (l.drop (l.length - n)).drop xs.length = l.drop (l.length + xs.length - n)
      rw [List.drop_drop]
      congr 1
      omega
    · congr 1
      rw [hlen]
      omega

theorem trimIter_eq_takeLast {α : Type} (xs : List α) :
    ∀ h : List α, h.length ≤ Storage.maxHistoryEntries →
      Storage.trimIter h xs = Storage.takeLast Storage.maxHistoryEntries (h ++ xs) := by
  induction xs with
  | nil =>
    intro h hh
    simp [Storage.trimIter, takeLast_of_le hh]
  | cons x xs ih =>
    intro h hh
    have hstep : Storage.trimIter h (x :: xs)
        = Storage.trimIter (Storage.trimHistory (h ++ [x])) xs := rfl
    have hlen : (Storage.trimHistory (h ++ [x])).length ≤ Storage.maxHistoryEntries := by
      rw [trimHistory_length]
      omega
    rw [hstep, ih _ hlen, trimHistory_eq_takeLast, takeLast_append_takeLast]
    simp

theorem applyCitySaves_history (city : String)
    (L : List (Weather.CurrentWeather × Nat)) :
    ∀ s : Storage.InMemoryStore,
      (Storage.applyCitySaves city L s).currentHistory (Storage.normalizeCity city)
        = Storage.trimIter (s.currentHistory (Storage.normalizeCity city))
            (L.map fun p => { At := p.2, Data := p.1 }) := by
  induction L with
  | nil => intro s; rfl
  | cons p L ih =>
    intro s
    have hfold : Storage.applyCitySaves city (p :: L) s
        = Storage.applyCitySaves city L (Storage.SaveCurrent s city p.1 p.2) := rfl
    have hsave : (Storage.SaveCurrent s city p.1 p.2).currentHistory
          (Storage.normalizeCity city)
        = Storage.trimHistory (s.currentHistory (Storage.normalizeCity city)
            ++ [{ At := p.2, Data := p.1 }]) := by
      simp [Storage.SaveCurrent]
    rw [hfold, ih, hsave]
    rfl

theorem applySaves_history_bound
    (saves : List (String × Weather.CurrentWeather × Nat)) :
    ∀ s : Storage.InMemoryStore,
      (∀ k, (s.currentHistory k).length ≤ Storage.maxHistoryEntries) →
      ∀ k, ((Storage.applySaves saves s).currentHistory k).length
        ≤ Storage.maxHistoryEntries := by
  induction saves with
  | nil => intro s hs k; exact hs k
  | cons sv saves ih =>
    intro s hs k
    have hstep : ∀ k2, ((Storage.SaveCurrent s sv.1 sv.2.1 sv.2.2).currentHistory k2).length
        ≤ Storage.maxHistoryEntries := by
      intro k2
      by_cases hk : k2 = Storage.normalizeCity sv.1
      · simp [Storage.SaveCurrent, hk, trimHistory_length]
      · simp [Storage.SaveCurrent, hk]
        exact hs k2
    exact ih _ hstep k

/-- Claim C6: for every key, after any sequence of saves the stored history
never exceeds 50 entries, and eviction is strictly FIFO: when more than 50
saves hit one key, CurrentHistory(key, 0) returns exactly the 50 most recent
snapshots in save (chronological) order, the oldest having been dropped from
the front. -/
theorem c6_history_bound_and_fifo
    (saves : List (String × Weather.CurrentWeather × Nat)) (k : String)
    (city : String) (L : List (Weather.CurrentWeather × Nat))
    (hN : L.length > Storage.maxHistoryEntries) :
    ((Storage.applySaves saves Storage.NewInMemoryStore).currentHistory k).length
      ≤ Storage.maxHistoryEntries ∧
    Storage.CurrentHistory (Storage.applyCitySaves city L Storage.NewInMemoryStore) city 0
      = (L.map fun p => ({ At := p.2, Data := p.1 } : Storage.CurrentSnapshot)).drop
          (L.length - Storage.maxHistoryEntries) := by
  constructor
  · exact applySaves_history_bound saves Storage.NewInMemoryStore
      (fun _ => by simp [Storage.NewInMemoryStore]) k
  · have hh := applyCitySaves_history city L Storage.NewInMemoryStore
    rw [show Storage.NewInMemoryStore.currentHistory (Storage.normalizeCity city)
          = [] from rfl,
        trimIter_eq_takeLast _ _ (by simp [Storage.maxHistoryEntries]),
        List.nil_append] at hh
    have hlenmap : (L.map fun p => ({ At := p.2, Data := p.1 } :
        Storage.CurrentSnapshot)).length = L.length := List.length_map _ _
    have hlen : (Storage.takeLast Storage.maxHistoryEntries
        (L.map fun p => ({ At := p.2, Data := p.1 } : Storage.CurrentSnapshot))).length
        = Storage.maxHistoryEntries := by
      simp [Storage.takeLast, hlenmap]
      omega
    simp only [Storage.CurrentHistory, hh, hlen]
    rw [if_neg (by simp [Storage.maxHistoryEntries]), if_pos (Or.inl (le_refl 0))]
    simp [Storage.takeLast, hlenmap]

theorem c6_history_bound_and_fifo_witness :
    save51.length > Storage.maxHistoryEntries ∧
    (((Storage.applySaves [] Storage.NewInMemoryStore).currentHistory "london").length
        ≤ Storage.maxHistoryEntries ∧
      Storage.CurrentHistory
          (Storage.applyCitySaves "London" save51 Storage.NewInMemoryStore) "London" 0
        = (save51.map fun p => ({ At := p.2, Data := p.1 } : Storage.CurrentSnapshot)).drop
            (save51.length - Storage.maxHistoryEntries)) := by
  have hN : save51.length > Storage.maxHistoryEntries := by
    simp [save51, Storage.maxHistoryEntries]
  exact ⟨hN, c6_history_bound_and_fifo [] "london" "London" save51 hN⟩
